import Mathlib

set_option autoImplicit false

/-!
Verification of `src/datasets/commands/datasets_cli.py`: a thin CLI router
that registers three subcommands, parses known and unknown arguments, folds
the unknown tokens into a keyword map, constructs the selected command's
service object and calls `run` on it.
-/

namespace DatasetsCli

/-- Python `key.lstrip("-")`: remove every leading `'-'` character. -/
def lstripDash (s : String) : String :=
  String.mk (s.data.dropWhile (fun c => c = '-'))

/-- Python slice `l[::2]`: the elements at even indices, in order. -/
def sliceEvens : List String → List String
  | [] => []
  | [a] => [a]
  | a :: _ :: rest => a :: sliceEvens rest

/-- Python slice `l[1::2]`: the elements at odd indices, in order. -/
def sliceOdds (l : List String) : List String :=
  sliceEvens (l.drop 1)

/-- Assignment into a Python `dict` modelled as an association list: an
existing key keeps its position and gets the new value, a new key is
appended at the end. -/
def dictInsert (d : List (String × String)) (k v : String) :
    List (String × String) :=
  match d with
  | [] => [(k, v)]
  | (k', v') :: rest =>
      if k' = k then (k', v) :: rest else (k', v') :: dictInsert rest k v

/-- Python `dict` lookup on the association-list model. -/
def dictFind? (d : List (String × String)) (k : String) : Option String :=
  match d with
  | [] => none
  | (k', v') :: rest => if k' = k then some v' else dictFind? rest k

/-- `parse_unknown_args(unknown_args)`:
`{key.lstrip("-"): value for key, value in zip(unknown_args[::2], unknown_args[1::2])}`.
Python `zip` stops at the shorter sequence, as does `List.zip`; the dict
comprehension inserts the pairs left to right. -/
def parse_unknown_args (unknown_args : List String) : List (String × String) :=
  ((sliceEvens unknown_args).zip (sliceOdds unknown_args)).foldl
    (fun d kv => dictInsert d (lstripDash kv.1) kv.2) []

/-- Adjacent pairing `(l[0],l[1]), (l[2],l[3]), …`, dropping a dangling final
element. Proved equal to `(sliceEvens l).zip (sliceOdds l)` below. -/
def pairUp : List String → List (String × String)
  | k :: v :: rest => (k, v) :: pairUp rest
  | _ => []

/-- The three subcommands that `main` registers, in registration order:
`EnvironmentCommand`, `TestCommand`, `DeleteFromHubCommand`. -/
inductive Command where
  | env
  | test
  | delete_from_hub
deriving DecidableEq, Repr

/-- Modelled from the spec: the registration modules
(`datasets/commands/env.py`, `test.py`, `delete_from_hub.py`) are not in the
provided sources; the spec names an environment-info command selected by
`"env"` and a test-runner command selected by `"test"`. -/
def registeredCommand (name : String) : Option Command :=
  if name = "env" then some Command.env
  else if name = "test" then some Command.test
  else if name = "delete-from-hub" then some Command.delete_from_hub
  else none

/-- Modelled from the spec: `parser.parse_known_args()` (the parse phase of
§4) splits the raw tokens into the structured result — whose `func` field is
set exactly when a registered subcommand was selected — and the leftover
tokens matching no declared flag. The flags declared by the external
subcommand modules are the parameter `declared`. -/
def parseKnownArgs (declared : Command → String → Bool) :
    List String → Option Command × List String
  | [] => (none, [])
  | t :: rest =>
    match registeredCommand t with
    | some c => (some c, rest.filter (fun tok => !(declared c tok)))
    | none => (none, t :: rest)

/-- Observable steps of `main` after parsing: printing help text,
constructing the service via the selected factory, and calling `run`. -/
inductive Event where
  | printHelp
  | construct (c : Command) (kwargs : List (String × String))
  | run (c : Command)
deriving DecidableEq, Repr

/-- `main()` over the parse model. If the parsed args carry no `func`
(`not hasattr(args, "func")`), help is printed and the process exits with
code 1. Otherwise `kwargs = parse_unknown_args(unknown_args)`, the factory is
called as `args.func(args, **kwargs)` and then `service.run()`. The factory
and `run` bodies live in the external command classes and may raise; they are
parameters returning `Except`. `main` catches nothing, so a raised error is
the value of the whole invocation (in Python it reaches the process boundary
and terminates the process with a nonzero status). The result is the event
trace together with `Except.ok exitCode`, or the uncaught error. -/
def mainModel (declared : Command → String → Bool)
    (factory : Command → List (String × String) → Except String Unit)
    (runService : Command → Except String Unit)
    (argv : List String) : List Event × Except String Nat :=
  match parseKnownArgs declared argv with
  | (none, _) => ([Event.printHelp], Except.ok 1)
  | (some c, unknown) =>
    match factory c (parse_unknown_args unknown) with
    | Except.error e =>
        ([Event.construct c (parse_unknown_args unknown)], Except.error e)
    | Except.ok _ =>
      match runService c with
      | Except.error e =>
          ([Event.construct c (parse_unknown_args unknown), Event.run c],
            Except.error e)
      | Except.ok _ =>
          ([Event.construct c (parse_unknown_args unknown), Event.run c],
            Except.ok 0)

/-- The CLI name under which each command is registered; the first argv token
equal to such a name selects that command. -/
def commandName : Command → String
  | Command.env => "env"
  | Command.test => "test"
  | Command.delete_from_hub => "delete-from-hub"

theorem registeredCommand_commandName (c : Command) :
    registeredCommand (commandName c) = some c := by
  cases c <;> rfl

theorem sliceEvens_cons (a : String) (l : List String) :
    sliceEvens (a :: l) = a :: sliceEvens (l.drop 1) := by
  cases l <;> rfl

theorem pairUp_nil : pairUp [] = [] := rfl

theorem pairUp_singleton (a : String) : pairUp [a] = [] := rfl

theorem pairUp_cons_cons (k v : String) (rest : List String) :
    pairUp (k :: v :: rest) = (k, v) :: pairUp rest := rfl

/-- `zip(l[::2], l[1::2])` pairs adjacent elements `(l[0],l[1]), (l[2],l[3]), …`
and drops a dangling final element. -/
theorem zip_slices_eq_pairUp : ∀ l : List String,
    (sliceEvens l).zip (sliceOdds l) = pairUp l
  | [] => rfl
  | [_] => rfl
  | a :: b :: rest => by
      have ih := zip_slices_eq_pairUp rest
      simp only [sliceOdds] at ih
      simp only [sliceEvens, sliceOdds, List.drop_succ_cons, List.drop_zero,
        sliceEvens_cons, List.zip_cons_cons, pairUp_cons_cons]
      rw [ih]

theorem parse_unknown_args_eq_foldl_pairUp (l : List String) :
    parse_unknown_args l =
      (pairUp l).foldl (fun d kv => dictInsert d (lstripDash kv.1) kv.2) [] := by
  rw [parse_unknown_args, zip_slices_eq_pairUp]

theorem pairUp_length : ∀ l : List String, (pairUp l).length = l.length / 2
  | [] => rfl
  | [_] => by simp [pairUp_singleton]
  | a :: b :: rest => by
      have ih := pairUp_length rest
      simp only [pairUp_cons_cons, List.length_cons, ih]
      omega

/-- On a list of odd length, `pairUp` never reaches the last element. -/
theorem pairUp_odd : ∀ l : List String, l.length % 2 = 1 →
    pairUp l = pairUp l.dropLast
  | [], h => by simp at h
  | [_], _ => rfl
  | a :: b :: rest, h => by
      have hrest : rest.length % 2 = 1 := by
        simp only [List.length_cons] at h
        omega
      have hne : rest ≠ [] := by
        intro hr
        rw [hr] at hrest
        simp at hrest
      have ih := pairUp_odd rest hrest
      match rest, hne with
      | c :: rest', _ =>
        simp only [List.dropLast_cons₂, pairUp_cons_cons] at ih ⊢
        exact congrArg _ ih

theorem dictInsert_length_le (d : List (String × String)) (k v : String) :
    (dictInsert d k v).length ≤ d.length + 1 := by
  induction d with
  | nil => simp [dictInsert]
  | cons kv rest ih =>
      obtain ⟨k', v'⟩ := kv
      simp only [dictInsert]
      by_cases h : k' = k
      · simp [h]
      · simp only [if_neg h, List.length_cons]
        omega

theorem foldl_dictInsert_length_le :
    ∀ (ps : List (String × String)) (acc : List (String × String)),
      (ps.foldl (fun d kv => dictInsert d (lstripDash kv.1) kv.2) acc).length ≤
        acc.length + ps.length
  | [], acc => by simp
  | kv :: rest, acc => by
      have ih := foldl_dictInsert_length_le rest
        (dictInsert acc (lstripDash kv.1) kv.2)
      have hstep := dictInsert_length_le acc (lstripDash kv.1) kv.2
      simp only [List.foldl_cons, List.length_cons]
      omega

theorem dictInsert_of_not_mem :
    ∀ (d : List (String × String)) (k v : String),
      k ∉ d.map Prod.fst → dictInsert d k v = d ++ [(k, v)]
  | [], _, _, _ => rfl
  | (k', v') :: rest, k, v, h => by
      simp only [List.map_cons, List.mem_cons, not_or] at h
      have ih := dictInsert_of_not_mem rest k v h.2
      have hne : ¬ (k' = k) := fun he => h.1 he.symm
      simp only [dictInsert, if_neg hne, ih, List.cons_append]

/-- When all stripped keys are pairwise distinct and fresh for the
accumulator, the fold is a plain map over the pairs. -/
theorem foldl_dictInsert_of_nodup :
    ∀ (ps : List (String × String)) (acc : List (String × String)),
      (acc.map Prod.fst ++ ps.map (fun kv => lstripDash kv.1)).Nodup →
      ps.foldl (fun d kv => dictInsert d (lstripDash kv.1) kv.2) acc =
        acc ++ ps.map (fun kv => (lstripDash kv.1, kv.2))
  | [], acc, _ => by simp
  | kv :: rest, acc, h => by
      rw [List.map_cons] at h
      have hnot : lstripDash kv.1 ∉ acc.map Prod.fst := by
        intro hmem
        exact (List.nodup_append.mp h).2.2 hmem (List.mem_cons_self _ _)
      have hstep := dictInsert_of_not_mem acc (lstripDash kv.1) kv.2 hnot
      have hperm : acc.map Prod.fst ++
          lstripDash kv.1 :: rest.map (fun kv => lstripDash kv.1) =
          (acc ++ [(lstripDash kv.1, kv.2)]).map Prod.fst ++
            rest.map (fun kv => lstripDash kv.1) := by
        simp
      have hnd : ((acc ++ [(lstripDash kv.1, kv.2)]).map Prod.fst ++
          rest.map (fun kv => lstripDash kv.1)).Nodup := by
        rw [← hperm]
        exact h
      have ih := foldl_dictInsert_of_nodup rest (acc ++ [(lstripDash kv.1, kv.2)]) hnd
      simp only [List.foldl_cons, hstep, ih, List.map_cons, List.append_assoc,
        List.singleton_append]

theorem dictFind?_dictInsert :
    ∀ (d : List (String × String)) (k v k' : String),
      dictFind? (dictInsert d k v) k' =
        if k = k' then some v else dictFind? d k'
  | [], k, v, k' => by simp [dictInsert, dictFind?]
  | (k₀, v₀) :: rest, k, v, k' => by
      by_cases h₀ : k₀ = k
      · subst h₀
        by_cases h₁ : k₀ = k'
        · simp [dictInsert, dictFind?, h₁]
        · simp [dictInsert, dictFind?, h₁]
      · have ih := dictFind?_dictInsert rest k v k'
        by_cases h₁ : k₀ = k'
        · subst h₁
          have : ¬ (k = k₀) := fun he => h₀ he.symm
          simp [dictInsert, dictFind?, h₀, this]
        · simp [dictInsert, dictFind?, h₀, h₁, ih]

/-- Lookup after the fold: the value of the LAST pair (in original order)
whose stripped key matches, Python dict overwrite semantics. -/
theorem dictFind?_foldl :
    ∀ (ps : List (String × String)) (acc : List (String × String)) (k : String),
      dictFind? (ps.foldl (fun d kv => dictInsert d (lstripDash kv.1) kv.2) acc) k =
        match ps.reverse.find? (fun kv => lstripDash kv.1 == k) with
        | some kv => some kv.2
        | none => dictFind? acc k
  | [], acc, k => by simp
  | kv :: rest, acc, k => by
      have ih := dictFind?_foldl rest (dictInsert acc (lstripDash kv.1) kv.2) k
      simp only [List.foldl_cons, List.reverse_cons, List.find?_append] at ih ⊢
      rw [ih]
      cases hfind : rest.reverse.find? (fun kv => lstripDash kv.1 == k) with
      | some kv' => simp
      | none =>
          simp only [Option.none_or]
          rw [dictFind?_dictInsert]
          by_cases hk : lstripDash kv.1 = k
          · have hb : (lstripDash kv.1 == k) = true := beq_iff_eq.mpr hk
            simp [List.find?, hb, hk]
          · have hb : (lstripDash kv.1 == k) = false := beq_eq_false_iff_ne.mpr hk
            simp [List.find?, hb, hk]

theorem mem_keys_dictInsert :
    ∀ (d : List (String × String)) (k v k' : String),
      k' ∈ (dictInsert d k v).map Prod.fst →
      k' ∈ d.map Prod.fst ∨ k' = k
  | [], k, v, k', h => by
      simp only [dictInsert, List.map_cons, List.map_nil, List.mem_cons,
        List.not_mem_nil, or_false] at h
      exact Or.inr h
  | (k₀, v₀) :: rest, k, v, k', h => by
      by_cases h₀ : k₀ = k
      · simp only [dictInsert, if_pos h₀, List.map_cons, List.mem_cons] at h ⊢
        exact Or.inl h
      · simp only [dictInsert, if_neg h₀, List.map_cons, List.mem_cons] at h ⊢
        rcases h with h | h
        · exact Or.inl (Or.inl h)
        · rcases mem_keys_dictInsert rest k v k' h with h' | h'
          · exact Or.inl (Or.inr h')
          · exact Or.inr h'

theorem keys_nodup_dictInsert :
    ∀ (d : List (String × String)) (k v : String),
      ((d.map Prod.fst).Nodup) → ((dictInsert d k v).map Prod.fst).Nodup
  | [], k, v, _ => by simp [dictInsert]
  | (k₀, v₀) :: rest, k, v, h => by
      simp only [List.map_cons, List.nodup_cons] at h
      by_cases h₀ : k₀ = k
      · simp only [dictInsert, if_pos h₀, List.map_cons, List.nodup_cons]
        exact h
      · simp only [dictInsert, if_neg h₀, List.map_cons, List.nodup_cons]
        refine ⟨fun hmem => ?_, keys_nodup_dictInsert rest k v h.2⟩
        rcases mem_keys_dictInsert rest k v k₀ hmem with h' | h'
        · exact h.1 h'
        · exact h₀ h'

theorem keys_nodup_foldl :
    ∀ (ps : List (String × String)) (acc : List (String × String)),
      (acc.map Prod.fst).Nodup →
      ((ps.foldl (fun d kv => dictInsert d (lstripDash kv.1) kv.2) acc).map
        Prod.fst).Nodup
  | [], _, h => h
  | kv :: rest, acc, h =>
      keys_nodup_foldl rest _ (keys_nodup_dictInsert acc (lstripDash kv.1) kv.2 h)

theorem mem_dictInsert :
    ∀ (d : List (String × String)) (k v : String) (p : String × String),
      p ∈ dictInsert d k v → p ∈ d ∨ p = (k, v)
  | [], k, v, p, h => by
      simp only [dictInsert, List.mem_cons, List.not_mem_nil, or_false] at h
      exact Or.inr h
  | (k₀, v₀) :: rest, k, v, p, h => by
      by_cases h₀ : k₀ = k
      · simp only [dictInsert, if_pos h₀, List.mem_cons] at h
        rcases h with h | h
        · refine Or.inr ?_
          rw [h, h₀]
        · exact Or.inl (List.mem_cons_of_mem _ h)
      · simp only [dictInsert, if_neg h₀, List.mem_cons] at h
        rcases h with h | h
        · rw [h]
          exact Or.inl (List.mem_cons_self _ _)
        · rcases mem_dictInsert rest k v p h with h' | h'
          · exact Or.inl (List.mem_cons_of_mem _ h')
          · exact Or.inr h'

/-- Every entry that survives the fold comes verbatim from one of the pairs:
key dash-stripped, value untouched. -/
theorem mem_foldl_dictInsert :
    ∀ (ps : List (String × String)) (acc : List (String × String))
      (p : String × String),
      p ∈ ps.foldl (fun d kv => dictInsert d (lstripDash kv.1) kv.2) acc →
      p ∈ acc ∨ ∃ kv ∈ ps, p = (lstripDash kv.1, kv.2)
  | [], acc, p, h => Or.inl h
  | kv :: rest, acc, p, h => by
      rcases mem_foldl_dictInsert rest (dictInsert acc (lstripDash kv.1) kv.2) p h
        with h' | ⟨kv', hkv', hp⟩
      · rcases mem_dictInsert acc (lstripDash kv.1) kv.2 p h' with h'' | h''
        · exact Or.inl h''
        · exact Or.inr ⟨kv, List.mem_cons_self _ _, h''⟩
      · exact Or.inr ⟨kv', List.mem_cons_of_mem _ hkv', hp⟩

theorem pairUp_getElem? : ∀ (l : List String) (i : Nat),
    (pairUp l)[i]? =
      match l[2 * i]?, l[2 * i + 1]? with
      | some k, some v => some (k, v)
      | _, _ => none
  | [], i => by simp [pairUp_nil]
  | [a], i => by
      cases i with
      | zero => simp [pairUp_singleton]
      | succ j =>
          have h1 : 2 * (j + 1) = 2 * j + 1 + 1 := by ring
          simp [pairUp_singleton, h1]
  | a :: b :: rest, 0 => by simp [pairUp_cons_cons]
  | a :: b :: rest, i + 1 => by
      have ih := pairUp_getElem? rest i
      have h1 : 2 * (i + 1) = 2 * i + 1 + 1 := by ring
      simp only [pairUp_cons_cons, h1, List.getElem?_cons_succ]
      exact ih

/-- Shared by the odd-length claims: `zip` stops before a dangling final
token, so parsing an odd-length list equals parsing it without its last
element. -/
theorem parse_unknown_args_dropLast (l : List String) (h : l.length % 2 = 1) :
    parse_unknown_args l = parse_unknown_args l.dropLast := by
  rw [parse_unknown_args_eq_foldl_pairUp, parse_unknown_args_eq_foldl_pairUp,
    pairUp_odd l h]

theorem parseKnownArgs_nil (declared : Command → String → Bool) :
    parseKnownArgs declared [] = (none, []) := rfl

theorem parseKnownArgs_commandName (declared : Command → String → Bool)
    (c : Command) (rest : List String) :
    parseKnownArgs declared (commandName c :: rest) =
      (some c, rest.filter (fun tok => !(declared c tok))) := by
  simp only [parseKnownArgs, registeredCommand_commandName]

theorem mainModel_of_none (declared : Command → String → Bool)
    (factory : Command → List (String × String) → Except String Unit)
    (runService : Command → Except String Unit)
    (argv rest : List String)
    (h : parseKnownArgs declared argv = (none, rest)) :
    mainModel declared factory runService argv =
      ([Event.printHelp], Except.ok 1) := by
  simp only [mainModel, h]

theorem mainModel_of_some_ok (declared : Command → String → Bool)
    (factory : Command → List (String × String) → Except String Unit)
    (runService : Command → Except String Unit)
    (argv : List String) (c : Command) (unknown : List String)
    (h : parseKnownArgs declared argv = (some c, unknown))
    (hf : factory c (parse_unknown_args unknown) = Except.ok ())
    (hr : runService c = Except.ok ()) :
    mainModel declared factory runService argv =
      ([Event.construct c (parse_unknown_args unknown), Event.run c],
        Except.ok 0) := by
  simp only [mainModel, h, hf, hr]

theorem mainModel_of_factory_error (declared : Command → String → Bool)
    (factory : Command → List (String × String) → Except String Unit)
    (runService : Command → Except String Unit)
    (argv : List String) (c : Command) (unknown : List String) (e : String)
    (h : parseKnownArgs declared argv = (some c, unknown))
    (hf : factory c (parse_unknown_args unknown) = Except.error e) :
    mainModel declared factory runService argv =
      ([Event.construct c (parse_unknown_args unknown)], Except.error e) := by
  simp only [mainModel, h, hf]

theorem mainModel_of_run_error (declared : Command → String → Bool)
    (factory : Command → List (String × String) → Except String Unit)
    (runService : Command → Except String Unit)
    (argv : List String) (c : Command) (unknown : List String) (e : String)
    (h : parseKnownArgs declared argv = (some c, unknown))
    (hf : factory c (parse_unknown_args unknown) = Except.ok ())
    (hr : runService c = Except.error e) :
    mainModel declared factory runService argv =
      ([Event.construct c (parse_unknown_args unknown), Event.run c],
        Except.error e) := by
  simp only [mainModel, h, hf, hr]

/-- C1 counterexample: the input `["--a", "1", "--a", "2"]` has even length 4,
yet the mapping has one entry, not `4 / 2 = 2`: both even-indexed tokens strip
to the key `"a"`, and the dict keeps a single entry. -/
theorem c1_counterexample :
    (["--a", "1", "--a", "2"] : List String).length % 2 = 0 ∧
    (parse_unknown_args ["--a", "1", "--a", "2"]).length ≠
      (["--a", "1", "--a", "2"] : List String).length / 2 := by decide

/-- C1 (amended): for an unknown-token list of even length `n` whose
dash-stripped even-indexed tokens are pairwise distinct,
`parse_unknown_args` returns a mapping of size `n / 2` whose `i`-th entry
pairs the dash-stripped token at index `2*i` with the token at index
`2*i + 1`, in original order. -/
theorem c1_even_distinct_parse (l : List String)
    (_he : l.length % 2 = 0)
    (hnd : ((pairUp l).map (fun kv => lstripDash kv.1)).Nodup) :
    (parse_unknown_args l).length = l.length / 2 ∧
    ∀ i : Nat, i < l.length / 2 → ∃ key v : String,
      l[2 * i]? = some key ∧ l[2 * i + 1]? = some v ∧
      (parse_unknown_args l)[i]? = some (lstripDash key, v) := by
  have hmap : parse_unknown_args l =
      (pairUp l).map (fun kv => (lstripDash kv.1, kv.2)) := by
    rw [parse_unknown_args_eq_foldl_pairUp]
    have h := foldl_dictInsert_of_nodup (pairUp l) [] (by simpa using hnd)
    simpa using h
  constructor
  · rw [hmap, List.length_map, pairUp_length]
  · intro i hi
    have hilen : i < (pairUp l).length := by
      rw [pairUp_length]
      exact hi
    have hkv : (pairUp l)[i]? = some ((pairUp l).get ⟨i, hilen⟩) := by
      rw [List.getElem?_eq_getElem hilen]
      rfl
    have hget := pairUp_getElem? l i
    rw [hkv] at hget
    cases h2i : l[2 * i]? with
    | none =>
        cases h2i1 : l[2 * i + 1]? <;> rw [h2i, h2i1] at hget <;> simp at hget
    | some key =>
        cases h2i1 : l[2 * i + 1]? with
        | none =>
            rw [h2i, h2i1] at hget
            simp at hget
        | some v =>
            rw [h2i, h2i1] at hget
            simp only [Option.some.injEq] at hget
            refine ⟨key, v, rfl, rfl, ?_⟩
            rw [hmap, List.getElem?_map, hkv, hget]
            rfl

theorem c1_even_distinct_parse_witness :
    (parse_unknown_args ["--a", "1", "--b", "2"]).length =
      (["--a", "1", "--b", "2"] : List String).length / 2 ∧
    ∀ i : Nat, i < (["--a", "1", "--b", "2"] : List String).length / 2 →
      ∃ key v : String,
        (["--a", "1", "--b", "2"] : List String)[2 * i]? = some key ∧
        (["--a", "1", "--b", "2"] : List String)[2 * i + 1]? = some v ∧
        (parse_unknown_args ["--a", "1", "--b", "2"])[i]? =
          some (lstripDash key, v) :=
  c1_even_distinct_parse ["--a", "1", "--b", "2"] (by decide) (by decide)

/-- C4 counterexample: an odd-length unknown-token list does not make the
call fail: `zip` stops before the dangling token `"--x"` and the call returns
a defined mapping built from the first two tokens. -/
theorem c4_counterexample :
    (["--a", "1", "--x"] : List String).length % 2 = 1 ∧
    parse_unknown_args ["--a", "1", "--x"] = [("a", "1")] := by decide

/-- C4 (amended): an odd-length unknown-token list is not validated, but no
runtime failure occurs either: the dangling final token is silently ignored
and the result is exactly that of the list without its last element. -/
theorem c4_odd_no_failure (l : List String) (h : l.length % 2 = 1) :
    parse_unknown_args l = parse_unknown_args l.dropLast :=
  parse_unknown_args_dropLast l h

theorem c4_odd_no_failure_witness :
    parse_unknown_args ["--a", "1", "--x"] =
      parse_unknown_args (["--a", "1", "--x"] : List String).dropLast :=
  c4_odd_no_failure ["--a", "1", "--x"] (by decide)

/-- C8: `parse_unknown_args` is a total function (no exception path exists in
the comprehension); on a list of odd length `n` it silently drops the final
dangling token, building the mapping from the first `n - 1` tokens only, with
at most `n / 2` entries. -/
theorem c8_total_odd_truncates (l : List String) (h : l.length % 2 = 1) :
    parse_unknown_args l = parse_unknown_args (l.take (l.length - 1)) ∧
    (parse_unknown_args l).length ≤ l.length / 2 := by
  constructor
  · rw [← List.dropLast_eq_take]
    exact parse_unknown_args_dropLast l h
  · rw [parse_unknown_args_eq_foldl_pairUp]
    have hle := foldl_dictInsert_length_le (pairUp l) []
    rw [pairUp_length] at hle
    simpa using hle

theorem c8_total_odd_truncates_witness :
    parse_unknown_args ["--a", "1", "--x"] =
      parse_unknown_args ((["--a", "1", "--x"] : List String).take
        ((["--a", "1", "--x"] : List String).length - 1)) ∧
    (parse_unknown_args ["--a", "1", "--x"]).length ≤
      (["--a", "1", "--x"] : List String).length / 2 :=
  c8_total_odd_truncates ["--a", "1", "--x"] (by decide)

/-- C9: the mapping keeps a single entry per stripped key — its key list has
no duplicates and a lookup returns the value of the LAST pair in positional
order whose stripped key matches — so some even-length inputs produce
strictly fewer than `n / 2` entries. -/
theorem c9_duplicate_keys_last_wins (l : List String) (k : String) :
    ((parse_unknown_args l).map Prod.fst).Nodup ∧
    dictFind? (parse_unknown_args l) k =
      ((pairUp l).reverse.find? (fun kv => lstripDash kv.1 == k)).map
        Prod.snd ∧
    ∃ l' : List String, l'.length % 2 = 0 ∧
      (parse_unknown_args l').length < l'.length / 2 := by
  refine ⟨?_, ?_, ⟨["--k", "1", "--k", "2"], by decide, by decide⟩⟩
  · rw [parse_unknown_args_eq_foldl_pairUp]
    exact keys_nodup_foldl _ [] (by simp)
  · rw [parse_unknown_args_eq_foldl_pairUp, dictFind?_foldl]
    cases hfind : (pairUp l).reverse.find? (fun kv => lstripDash kv.1 == k) with
    | some kv => simp
    | none => simp [dictFind?]

theorem c9_duplicate_keys_last_wins_witness :
    ((parse_unknown_args ["--k", "1", "--k", "2"]).map Prod.fst).Nodup ∧
    dictFind? (parse_unknown_args ["--k", "1", "--k", "2"]) "k" =
      ((pairUp ["--k", "1", "--k", "2"]).reverse.find?
        (fun kv => lstripDash kv.1 == "k")).map Prod.snd ∧
    ∃ l' : List String, l'.length % 2 = 0 ∧
      (parse_unknown_args l').length < l'.length / 2 :=
  c9_duplicate_keys_last_wins ["--k", "1", "--k", "2"] "k"

/-- C10: dash stripping applies only to keys, never to values: every entry of
the mapping is some adjacent pair of the input with the key dash-stripped and
the value verbatim; `["--a", "--b"]` yields `{"a": "--b"}`, and an all-dash
key token becomes the empty-string key. -/
theorem c10_values_verbatim (l : List String) (p : String × String)
    (hp : p ∈ parse_unknown_args l) :
    (∃ kv ∈ pairUp l, p = (lstripDash kv.1, kv.2)) ∧
    parse_unknown_args ["--a", "--b"] = [("a", "--b")] ∧
    lstripDash "--" = "" ∧
    parse_unknown_args ["--", "x"] = [("", "x")] := by
  refine ⟨?_, by decide, by decide, by decide⟩
  rw [parse_unknown_args_eq_foldl_pairUp] at hp
  rcases mem_foldl_dictInsert (pairUp l) [] p hp with h | h
  · simp at h
  · exact h

theorem c10_values_verbatim_witness :
    (∃ kv ∈ pairUp ["--a", "--b"], ("a", "--b") = (lstripDash kv.1, kv.2)) ∧
    parse_unknown_args ["--a", "--b"] = [("a", "--b")] ∧
    lstripDash "--" = "" ∧
    parse_unknown_args ["--", "x"] = [("", "x")] :=
  c10_values_verbatim ["--a", "--b"] ("a", "--b") (by decide)

/-- C2: with no argv tokens no subcommand is selected, so `main` prints the
help text to standard output and exits with code 1; the trace contains no
service construction and no `run` call, whatever the registered factories
and declared flags are. -/
theorem c2_no_args_help_exit_one (declared : Command → String → Bool)
    (factory : Command → List (String × String) → Except String Unit)
    (runService : Command → Except String Unit) :
    mainModel declared factory runService [] =
      ([Event.printHelp], Except.ok 1) ∧
    ∀ c kwargs,
      Event.construct c kwargs ∉ (mainModel declared factory runService []).1 ∧
      Event.run c ∉ (mainModel declared factory runService []).1 := by
  have h : mainModel declared factory runService [] =
      ([Event.printHelp], Except.ok 1) :=
    mainModel_of_none declared factory runService [] [] rfl
  refine ⟨h, fun c kwargs => ?_⟩
  rw [h]
  constructor <;> simp

theorem c2_no_args_help_exit_one_witness :
    mainModel (fun _ _ => false) (fun _ _ => Except.ok ())
        (fun _ => Except.ok ()) [] = ([Event.printHelp], Except.ok 1) :=
  (c2_no_args_help_exit_one (fun _ _ => false) (fun _ _ => Except.ok ())
    (fun _ => Except.ok ())).1

/-- C3: an unregistered first token matches no subcommand, so no factory
field is set and the invocation behaves exactly like supplying no arguments:
help text printed, exit code 1, no construction and no `run`. -/
theorem c3_unregistered_like_no_args (declared : Command → String → Bool)
    (factory : Command → List (String × String) → Except String Unit)
    (runService : Command → Except String Unit)
    (name : String) (rest : List String)
    (h : registeredCommand name = none) :
    mainModel declared factory runService (name :: rest) =
      ([Event.printHelp], Except.ok 1) ∧
    mainModel declared factory runService (name :: rest) =
      mainModel declared factory runService [] := by
  have hp : parseKnownArgs declared (name :: rest) = (none, name :: rest) := by
    simp only [parseKnownArgs, h]
  have hm := mainModel_of_none declared factory runService (name :: rest)
    (name :: rest) hp
  have hm0 := mainModel_of_none declared factory runService [] [] rfl
  exact ⟨hm, hm.trans hm0.symm⟩

theorem c3_unregistered_like_no_args_witness :
    mainModel (fun _ _ => false) (fun _ _ => Except.ok ())
        (fun _ => Except.ok ()) ["bogus"] =
      ([Event.printHelp], Except.ok 1) ∧
    mainModel (fun _ _ => false) (fun _ _ => Except.ok ())
        (fun _ => Except.ok ()) ["bogus"] =
      mainModel (fun _ _ => false) (fun _ _ => Except.ok ())
        (fun _ => Except.ok ()) [] :=
  c3_unregistered_like_no_args (fun _ _ => false) (fun _ _ => Except.ok ())
    (fun _ => Except.ok ()) "bogus" [] (by decide)

/-- C5: a registered subcommand name with no extra tokens leads to exactly
one service construction via the selected factory (with empty kwargs) and
exactly one `run` call; in particular `["env"]` selects the environment
command with an empty unknown-option map and one `run` call. -/
theorem c5_registered_one_construct_one_run (declared : Command → String → Bool)
    (factory : Command → List (String × String) → Except String Unit)
    (runService : Command → Except String Unit) (c : Command)
    (hf : ∀ c', factory c' [] = Except.ok ())
    (hr : ∀ c', runService c' = Except.ok ()) :
    mainModel declared factory runService [commandName c] =
      ([Event.construct c [], Event.run c], Except.ok 0) ∧
    ((mainModel declared factory runService [commandName c]).1.count
        (Event.construct c []) = 1 ∧
      (mainModel declared factory runService [commandName c]).1.count
        (Event.run c) = 1) ∧
    mainModel declared factory runService ["env"] =
      ([Event.construct Command.env [], Event.run Command.env],
        Except.ok 0) := by
  have h0 : ∀ c' : Command,
      mainModel declared factory runService [commandName c'] =
        ([Event.construct c' [], Event.run c'], Except.ok 0) := by
    intro c'
    have hp := parseKnownArgs_commandName declared c' []
    exact mainModel_of_some_ok declared factory runService [commandName c'] c'
      [] hp (hf c') (hr c')
  refine ⟨h0 c, ⟨?_, ?_⟩, h0 Command.env⟩
  · rw [h0 c]
    simp [List.count_cons]
  · rw [h0 c]
    simp [List.count_cons]

theorem c5_registered_one_construct_one_run_witness :
    mainModel (fun _ _ => false) (fun _ _ => Except.ok ())
        (fun _ => Except.ok ()) [commandName Command.env] =
      ([Event.construct Command.env [], Event.run Command.env],
        Except.ok 0) ∧
    ((mainModel (fun _ _ => false) (fun _ _ => Except.ok ())
        (fun _ => Except.ok ()) [commandName Command.env]).1.count
          (Event.construct Command.env []) = 1 ∧
      (mainModel (fun _ _ => false) (fun _ _ => Except.ok ())
        (fun _ => Except.ok ()) [commandName Command.env]).1.count
          (Event.run Command.env) = 1) ∧
    mainModel (fun _ _ => false) (fun _ _ => Except.ok ())
        (fun _ => Except.ok ()) ["env"] =
      ([Event.construct Command.env [], Event.run Command.env],
        Except.ok 0) :=
  c5_registered_one_construct_one_run (fun _ _ => false)
    (fun _ _ => Except.ok ()) (fun _ => Except.ok ()) Command.env
    (fun _ => rfl) (fun _ => rfl)

/-- C6: unknown `--key value` token pairs that match no declared flag are
forwarded to the selected subcommand's factory as the unknown-option mapping:
whenever a subcommand is selected, the construction event carries
`parse_unknown_args` of the leftover tokens; in particular
`["test", "--verbose", "true"]` with `--verbose` undeclared passes
`{"verbose": "true"}` to the test command's factory. -/
theorem c6_unknown_options_forwarded (declared : Command → String → Bool)
    (factory : Command → List (String × String) → Except String Unit)
    (runService : Command → Except String Unit)
    (hd1 : declared Command.test "--verbose" = false)
    (hd2 : declared Command.test "true" = false)
    (hf : factory Command.test [("verbose", "true")] = Except.ok ())
    (hr : runService Command.test = Except.ok ()) :
    mainModel declared factory runService ["test", "--verbose", "true"] =
      ([Event.construct Command.test [("verbose", "true")],
        Event.run Command.test], Except.ok 0) ∧
    ∀ (argv : List String) (c : Command) (unknown : List String),
      parseKnownArgs declared argv = (some c, unknown) →
      (mainModel declared factory runService argv).1.head? =
        some (Event.construct c (parse_unknown_args unknown)) := by
  constructor
  · have hp : parseKnownArgs declared ["test", "--verbose", "true"] =
        (some Command.test, ["--verbose", "true"]) := by
      have h := parseKnownArgs_commandName declared Command.test
        ["--verbose", "true"]
      simp only [commandName] at h
      rw [h]
      simp [List.filter, hd1, hd2]
    have hparse : parse_unknown_args ["--verbose", "true"] =
        [("verbose", "true")] := by decide
    have hf' : factory Command.test
        (parse_unknown_args ["--verbose", "true"]) = Except.ok () := by
      rw [hparse]
      exact hf
    have hm := mainModel_of_some_ok declared factory runService
      ["test", "--verbose", "true"] Command.test ["--verbose", "true"]
      hp hf' hr
    rw [hparse] at hm
    exact hm
  · intro argv c unknown hsel
    simp only [mainModel, hsel]
    cases hfc : factory c (parse_unknown_args unknown) with
    | error e => rfl
    | ok u =>
        cases hrc : runService c with
        | error e => rfl
        | ok u' => rfl

theorem c6_unknown_options_forwarded_witness :
    mainModel (fun _ _ => false) (fun _ _ => Except.ok ())
        (fun _ => Except.ok ()) ["test", "--verbose", "true"] =
      ([Event.construct Command.test [("verbose", "true")],
        Event.run Command.test], Except.ok 0) ∧
    ∀ (argv : List String) (c : Command) (unknown : List String),
      parseKnownArgs (fun _ _ => false) argv = (some c, unknown) →
      (mainModel (fun _ _ => false) (fun _ _ => Except.ok ())
        (fun _ => Except.ok ()) argv).1.head? =
        some (Event.construct c (parse_unknown_args unknown)) :=
  c6_unknown_options_forwarded (fun _ _ => false) (fun _ _ => Except.ok ())
    (fun _ => Except.ok ()) rfl rfl rfl rfl

/-- C7: errors raised while the selected factory constructs the service, or
while `run` executes, are caught nowhere in the router: the invocation's
value is the error itself, which in Python reaches the process boundary and
terminates the process with a nonzero status; the trace shows a single
construction attempt and no retry. -/
theorem c7_errors_propagate_uncaught (declared : Command → String → Bool)
    (factory : Command → List (String × String) → Except String Unit)
    (runService : Command → Except String Unit)
    (argv : List String) (c : Command) (unknown : List String)
    (hsel : parseKnownArgs declared argv = (some c, unknown)) :
    (∀ e, factory c (parse_unknown_args unknown) = Except.error e →
      mainModel declared factory runService argv =
        ([Event.construct c (parse_unknown_args unknown)],
          Except.error e)) ∧
    (∀ e, factory c (parse_unknown_args unknown) = Except.ok () →
      runService c = Except.error e →
      mainModel declared factory runService argv =
        ([Event.construct c (parse_unknown_args unknown), Event.run c],
          Except.error e)) := by
  constructor
  · intro e hf
    exact mainModel_of_factory_error declared factory runService argv c
      unknown e hsel hf
  · intro e hf hr
    exact mainModel_of_run_error declared factory runService argv c
      unknown e hsel hf hr

theorem c7_errors_propagate_uncaught_witness :
    mainModel (fun _ _ => false) (fun _ _ => Except.error "boom")
        (fun _ => Except.ok ()) ["env"] =
      ([Event.construct Command.env (parse_unknown_args [])],
        Except.error "boom") :=
  (c7_errors_propagate_uncaught (fun _ _ => false)
      (fun _ _ => Except.error "boom") (fun _ => Except.ok ())
      ["env"] Command.env [] (by decide)).1 "boom" rfl

end DatasetsCli
